import Mathlib

/-!
Shallow embedding of the sigma-to-QRadar translation core:
* `sigma/tools/sigma/backends/qradar.py` — the QRadar backend renderer
  (condition-tree rendering, aggregation fragments, query assembly);
* `sigma/tools/sigma/configuration.py` — `SigmaConfiguration` and
  `SigmaLogsourceConfiguration` (log-source matching, merging, defaults).

Python values coming from parsed YAML are modelled by `PVal`; Python `None`
for optional attributes by `Option`; raised exceptions by `Except` with a
dedicated error enumeration.  Machinery that lives in the backend base class
(`base.py`, which is not part of the sources) is modelled from the spec and
marked as such in its doc comment.
-/

/-- A Python value as produced by YAML parsing (strings, ints, lists,
maps, `None`).  Used wherever the source code inspects `type(x)`. -/
inductive PVal where
  | pstr (s : String)
  | pint (n : Int)
  | plist (l : List PVal)
  | pdict (l : List (String × PVal))
  | pnone

/-- A scalar rule value: Python `str` or `int` (the only types the backend
accepts as map values and list members). -/
inductive Scalar where
  | str (s : String)
  | int (n : Int)
  deriving DecidableEq, Repr

/-- The condition parse tree handed to the backend renderer, covering exactly
the cases dispatched in `QRadarBackend.generateNode`: `ConditionAND`,
`ConditionOR`, `ConditionNOT`, `ConditionNULLValue`, `ConditionNotNULLValue`,
`NodeSubexpression`, key/value tuples, scalars and lists of scalars. -/
inductive SigmaNode where
  | cAnd (children : List SigmaNode)
  | cOr (children : List SigmaNode)
  | cNot (child : SigmaNode)
  | nullValue (item : String)
  | notNullValue (item : String)
  | subexpr (child : SigmaNode)
  | mapItem (key : String) (value : SigmaNode)
  | scalar (v : Scalar)
  | listNode (items : List Scalar)

/-- Errors raised while rendering one rule (Python `TypeError` /
`NotImplementedError` in the backend). -/
inductive TransError where
  | unsupportedNodeKind
  | unsupportedMapValueType
  | unsupportedAggregation
  deriving DecidableEq, Repr

/-- Errors raised while building configuration objects
(`SigmaConfigParseError`, `ValueError`, `TypeError` in `configuration.py`). -/
inductive ConfigError where
  | mergeConflict
  | invalidDefaultIndexType
  | invalidMergeMethod
  | parseError (msg : String)
  deriving DecidableEq, Repr

/-- The single-quote character (decimal 39), the delimiter of the backend
value-literal syntax `valueExpression = "'%s'"`. -/
def sqChar : Char := Char.ofNat 39

/-- The double-quote character (decimal 34), the only character matched by
the backend escape pattern `reEscape = re.compile('(")')`. -/
def dqChar : Char := Char.ofNat 34

/-- The backslash character (decimal 92), used as escape marker. -/
def bsChar : Char := Char.ofNat 92

/-- Single-quote as a one-character string. -/
def sqStr : String := String.singleton sqChar

/-- Python substring containment `needle in hay`: some suffix of `hay`
starts with `needle`. -/
def strContains (hay needle : String) : Bool :=
  (List.range (hay.toList.length + 1)).any
    (fun i => needle.toList.isPrefixOf (hay.toList.drop i))

namespace QRadar

/-- `QRadarBackend.andToken`. -/
def andToken : String := " and "

/-- `QRadarBackend.orToken`. -/
def orToken : String := " or "

/-- `QRadarBackend.notToken`. -/
def notToken : String := "not "

/-- `QRadarBackend.listSeparator`. -/
def listSeparator : String := " "

/-- `QRadarBackend.aql_database`, the class-level constant data source
name used by `generateAggregation`. -/
def aql_database : String := "events"

/-- `QRadarBackend.cleanKey`: double-quote the key when it contains a
space. -/
def cleanKey (key : String) : String :=
  if strContains key " " then String.singleton dqChar ++ key ++ String.singleton dqChar
  else key

/-- Character-level body of `cleanValue`: prefix a backslash to every
double-quote character; other characters pass through. -/
def cleanValueList : List Char → List Char
  | [] => []
  | c :: rest =>
    if c = dqChar then bsChar :: c :: cleanValueList rest
    else c :: cleanValueList rest

/-- Modelled from the spec: `cleanValue` lives in the backend base class
(`base.py`, not among the sources); the spec requires every scalar to be
escaped for embedded quote characters before insertion into the value
literal.  The QRadar backend configures that escaping by
`reEscape = re.compile('(")')` and `reClear = None` (both in the sources):
each double-quote is prefixed with a backslash and nothing is removed. -/
def cleanValue (s : String) : String :=
  String.mk (cleanValueList s.toList)

/-- Python `str()` of a scalar. -/
def scalarStr : Scalar → String
  | .str s => s
  | .int n => toString n

/-- `QRadarBackend.generateValueNode node keypresent`: without a key the
value becomes a full-text `UTF8(payload) ilike` pattern wrapped in `%`;
with a key it is the single-quoted escaped literal `valueExpression`. -/
def generateValueNode (node : Scalar) (keypresent : Bool) : String :=
  if keypresent = false then
    "UTF8(payload) ilike " ++ sqStr ++ "%" ++ cleanValue (scalarStr node) ++ "%" ++ sqStr
  else
    sqStr ++ cleanValue (scalarStr node) ++ sqStr

/-- One iteration of the loop body of `QRadarBackend.generateMapItemListNode`:
a string item containing the wildcard `*` becomes a `key ilike` pattern with
`*` replaced by `%`; every other item becomes `key = value`. -/
def mapListItemClause (key : String) (item : Scalar) : String :=
  match item with
  | .str s =>
    if strContains s "*" then
      cleanKey key ++ " ilike " ++ generateValueNode (.str (s.replace "*" "%")) true
    else
      cleanKey key ++ " = " ++ generateValueNode item true
  | .int _ =>
    cleanKey key ++ " = " ++ generateValueNode item true

/-- `QRadarBackend.generateMapItemListNode`: render each list item, then
join with `" or "` and parenthesize. -/
def generateMapItemListNode (key : String) (value : List Scalar) : String :=
  "(" ++ String.intercalate " or " (value.map (mapListItemClause key)) ++ ")"

/-- `QRadarBackend.mapListsSpecialHandling` (class constant, `True`). -/
def mapListsSpecialHandling : Bool := true

/-- `QRadarBackend.generateMapItemNode`.  Because `mapListsSpecialHandling`
is `True` for this backend, scalar values take the wildcard/equality branch
(`mapExpression = "%s=%s"`), list values go to `generateMapItemListNode`,
and every other value type raises `TypeError` (the `generateNode` sub-branch
for list values inside the first conditional is reachable only when the flag
is `False`, hence dead here). -/
def generateMapItemNode (key : String) (value : SigmaNode) : Except TransError String :=
  match value with
  | .scalar (.str s) =>
    if strContains s "*" then
      .ok (cleanKey key ++ " ilike " ++ generateValueNode (.str (s.replace "*" "%")) true)
    else
      .ok (cleanKey key ++ "=" ++ generateValueNode (.str s) true)
  | .scalar (.int n) =>
    .ok (cleanKey key ++ "=" ++ generateValueNode (.int n) true)
  | .listNode items => .ok (generateMapItemListNode key items)
  | _ => .error .unsupportedMapValueType

mutual

/-- `QRadarBackend.generateNode`, the renderer dispatch.  The handlers for
`AND`/`OR`/`NOT`/subexpression nodes and bare scalars/lists live in the
backend base class (not among the sources) and are modelled from the spec:
children joined with the backend AND/OR token, NOT token prefixed,
subexpression parenthesized (`subExpression = "(%s)"`), null checks via
`nullExpression`/`notNullExpression` (overridden in the sources), bare
scalars and list members rendered as full-text payload patterns. -/
def generateNode : SigmaNode → Except TransError String
  | .cAnd children => do
    let rs ← genNodeList children
    .ok (String.intercalate andToken rs)
  | .cOr children => do
    let rs ← genNodeList children
    .ok (String.intercalate orToken rs)
  | .cNot child => do
    let r ← generateNode child
    .ok (notToken ++ r)
  | .nullValue item => .ok (item ++ " is null")
  | .notNullValue item => .ok ("not (" ++ item ++ " is null)")
  | .subexpr child => do
    let r ← generateNode child
    .ok ("(" ++ r ++ ")")
  | .mapItem key value => generateMapItemNode key value
  | .scalar v => .ok (generateValueNode v false)
  | .listNode items =>
    .ok (String.intercalate listSeparator (items.map (fun v => generateValueNode v false)))

/-- Renders a list of child nodes left to right, stopping at the first
error (Python list comprehension with exception propagation). -/
def genNodeList : List SigmaNode → Except TransError (List String)
  | [] => .ok []
  | x :: xs => do
    let r ← generateNode x
    let rs ← genNodeList xs
    .ok (r :: rs)

end

/-- Sigma aggregation functions (`SigmaAggregationParser.AGGFUNC_*`). -/
inductive AggFunc where
  | count | min | max | avg | sum | near
  deriving DecidableEq, Repr

/-- The parsed aggregation descriptor handed to `generateAggregation`:
the recognized function tag, its untranslated spelling
(`aggfunc_notrans`), the aggregated field, the optional group-by field,
the comparison operator and the threshold (kept as the parser's text). -/
structure AggregationSpec where
  aggfunc : AggFunc
  aggfunc_notrans : String
  aggfield : String
  groupfield : Option String
  cond_op : String
  condition : String
  deriving DecidableEq, Repr

/-- Result of `generateAggregation`: the Python method returns the empty
string when no aggregation is present and a `(prefix, suffix)` pair
otherwise. -/
inductive AggResult where
  | noAgg
  | fragments (pre suf : String)
  deriving DecidableEq, Repr

/-- `QRadarBackend.generateAggregation`.  `None` yields no fragments; the
`near` function raises `NotImplementedError`; without a group field the
fragments carry no surrounding spaces on the SELECT part and group by the
aggregation field; with a group field the SELECT part gains one leading and
one trailing space and the suffix groups by the group field. -/
def generateAggregation (agg : Option AggregationSpec) : Except TransError AggResult :=
  match agg with
  | none => .ok .noAgg
  | some a =>
    if a.aggfunc = .near then .error .unsupportedAggregation
    else
      match a.groupfield with
      | none =>
        .ok (.fragments
          ("SELECT " ++ a.aggfunc_notrans ++ "(" ++ a.aggfield ++ ") as agg_val from "
            ++ aql_database ++ " where")
          (" group by " ++ a.aggfield ++ " having agg_val " ++ a.cond_op ++ " " ++ a.condition))
      | some g =>
        .ok (.fragments
          (" SELECT " ++ a.aggfunc_notrans ++ "(" ++ a.aggfield ++ ") as agg_val from "
            ++ aql_database ++ " where ")
          (" group by " ++ g ++ " having agg_val " ++ a.cond_op ++ " " ++ a.condition))

/-- One parsed condition variant of a rule (`SigmaParser.condparsed`
element): the condition tree and the optional aggregation descriptor. -/
structure Parsed where
  parsedSearch : SigmaNode
  parsedAgg : Option AggregationSpec

/-- The data source chosen in `generateQuery` from the resolved log-source
index patterns: `"flows"` when any pattern contains `"flow"`, else
`"events"`. -/
def aqlDataSource (parsedlogsource : List String) : String :=
  if parsedlogsource.any (fun i => strContains i "flow") then "flows" else "events"

/-- `QRadarBackend.generateQuery`: render the condition tree, pick the data
source from the rule's resolved index patterns, then either wrap the
predicate in the aggregation fragments (which use the class constant
`aql_database`, not the locally selected source) or prepend the
non-aggregation SELECT head. -/
def generateQuery (parsed : Parsed) (logsourceIndex : List String) :
    Except TransError String := do
  let result ← generateNode parsed.parsedSearch
  let qradarHead :=
    "SELECT UTF8(payload) as search_payload from " ++ aqlDataSource logsourceIndex ++ " where "
  match parsed.parsedAgg with
  | some agg =>
    match ← generateAggregation (some agg) with
    | .fragments pre suf => .ok (pre ++ result ++ suf)
    | .noAgg => .ok result
  | none => .ok (qradarHead ++ result)

/-- Modelled from the spec: the base class's per-rule before-fragment (not
among the sources) contributes no text — the spec's assembled output is
exactly head/prefix + predicate (+ suffix). -/
def generateBefore (_parsed : Parsed) : Option String := some ""

/-- Modelled from the spec: the base class's per-rule after-fragment (not
among the sources) contributes no text. -/
def generateAfter (_parsed : Parsed) : Option String := some ""

/-- `QRadarBackend.generate`: iterates over the parsed condition variants
but returns from inside the loop body, so only the first variant is ever
rendered; an empty list returns Python `None`. -/
def generate (condparsed : List Parsed) (logsourceIndex : List String) :
    Except TransError (Option String) :=
  match condparsed with
  | [] => .ok none
  | parsed :: _ => do
    let query ← generateQuery parsed logsourceIndex
    let result := ""
    let result := match generateBefore parsed with | some b => b | none => result
    let result := result ++ query
    let result := match generateAfter parsed with | some a => result ++ a | none => result
    .ok (some result)

end QRadar

/-- Python dict key lookup (`k in d` / `d[k]`), first matching entry. -/
def dictLookup (d : List (String × PVal)) (k : String) : Option PVal :=
  (d.find? (fun e => e.1 = k)).map (fun e => e.2)

/-- The string carried by a `PVal` when it is a Python `str`. -/
def pvalAsStr : PVal → Option String
  | .pstr s => some s
  | _ => none

/-- `type(v) == str` for a `PVal`. -/
def pvalIsStr : PVal → Bool
  | .pstr _ => true
  | _ => false

namespace SigmaCfg

/-- A log-source `conditions` tree as built by `configuration.py`:
`ConditionAND`/`ConditionOR` nodes whose direct children are either
key/value tuples (from a `conditions:` map) or further condition nodes
(added while merging). -/
inductive LsCond where
  | andC (children : List LsCond)
  | orC (children : List LsCond)
  | pair (key : String) (value : PVal)

/-- `SigmaLogsourceConfiguration.MM_AND`. -/
def MM_AND : String := "and"

/-- `SigmaLogsourceConfiguration.MM_OR`. -/
def MM_OR : String := "or"

/-- The attributes of a built `SigmaLogsourceConfiguration`. -/
structure LogsourceConfig where
  name : Option String
  indexfield : Option String
  category : Option String
  product : Option String
  service : Option String
  index : List String
  conditions : Option LsCond

/-- The loop of `SigmaLogsourceConfiguration.matches` over the three
(query attribute, definition attribute) pairs, threading the `searched`
counter; the final Python `return True if searched else None` is modelled
by its truthiness. -/
def matchesLoop : List (Option String × Option String) → Nat → Bool
  | [], searched => searched ≠ 0
  | (searchval, selfval) :: rest, searched =>
    if searchval = none ∧ selfval ≠ none then false
    else if selfval ≠ none then
      if searchval ≠ selfval then false
      else matchesLoop rest (searched + 1)
    else matchesLoop rest searched

/-- `SigmaLogsourceConfiguration.matches`. -/
def matchesLogsource (ls : LogsourceConfig) (category product service : Option String) : Bool :=
  matchesLoop [(category, ls.category), (product, ls.product), (service, ls.service)] 0

/-- Default-index substitution inside the merge branch of
`SigmaLogsourceConfiguration.__init__`: when the unioned index set is empty
and a default index is configured, a string default becomes a one-element
list, a list-of-strings default is used as-is, and any other configured
type raises `TypeError`. -/
def mergeDefaultIndex (index0 : List String) (defaultindex : Option PVal) :
    Except ConfigError (List String) :=
  match index0, defaultindex with
  | [], some di =>
    match di with
    | .pstr s => Except.ok [s]
    | .plist l =>
      if l.all pvalIsStr then Except.ok (l.filterMap pvalAsStr)
      else Except.error ConfigError.invalidDefaultIndexType
    | _ => Except.error ConfigError.invalidDefaultIndexType
  | _, _ => Except.ok index0

/-- Condition accumulation inside the merge branch: the configured merge
method selects a `ConditionAND` or `ConditionOR` node; an unrecognized
method raises `ValueError`. -/
def mergeCondNode (mergemethod : String) (conds : List LsCond) : Except ConfigError LsCond :=
  if mergemethod = MM_AND then Except.ok (LsCond.andC conds)
  else if mergemethod = MM_OR then Except.ok (LsCond.orC conds)
  else Except.error ConfigError.invalidMergeMethod

/-- The merge branch of `SigmaLogsourceConfiguration.__init__` (argument a
list of already-built instances): disjointness check on category, product
and service; deduplicated union of index patterns with default-index
substitution; first non-absent index field; conditions accumulated under
the configured merge method (kept only when at least one was added). -/
def mergeLogsourceConfigs (logsource : List LogsourceConfig) (defaultindex : Option PVal)
    (name : Option String) (mergemethod : String) : Except ConfigError LogsourceConfig :=
  let categories := (logsource.filterMap (fun ls => ls.category)).dedup
  let products := (logsource.filterMap (fun ls => ls.product)).dedup
  let services := (logsource.filterMap (fun ls => ls.service)).dedup
  if categories.length > 1 ∨ products.length > 1 ∨ services.length > 1 then
    .error .mergeConflict
  else do
    let index0 := (logsource.flatMap (fun ls => ls.index)).dedup
    let index ← mergeDefaultIndex index0 defaultindex
    let indexfields := logsource.filterMap (fun ls => ls.indexfield)
    let conds := logsource.filterMap (fun ls => ls.conditions)
    let condNode ← mergeCondNode mergemethod conds
    Except.ok {
      name := name
      indexfield := indexfields.head?
      category := categories.head?
      product := products.head?
      service := services.head?
      index := index
      conditions := if conds.length > 0 then some condNode else none }

/-- The YAML-dict branch of `SigmaLogsourceConfiguration.__init__`:
category/product/service must be strings when present and at least one must
be present; `index` must be a string or list of strings; `conditions` must
be a map and becomes an AND node of key/value pairs. -/
def parseLogsourceDict (d : List (String × PVal)) (name : Option String)
    (indexfield : Option String) : Except ConfigError LogsourceConfig := do
  let catV := dictLookup d "category"
  let prodV := dictLookup d "product"
  let servV := dictLookup d "service"
  let notStr : Option PVal → Bool := fun v =>
    match v with
    | none => false
    | some w => !pvalIsStr w
  if notStr catV ∨ notStr prodV ∨ notStr servV then
    Except.error (ConfigError.parseError "Logsource category, product or service must be a string")
  else
    let category := catV.bind pvalAsStr
    let product := prodV.bind pvalAsStr
    let service := servV.bind pvalAsStr
    if category = none ∧ product = none ∧ service = none then
      Except.error (ConfigError.parseError "Log source definition will not match")
    else do
      let index ←
        match dictLookup d "index" with
        | none => Except.ok []
        | some (.pstr s) => Except.ok [s]
        | some (.plist l) =>
          if l.all pvalIsStr then Except.ok (l.filterMap pvalAsStr)
          else Except.error (ConfigError.parseError "Logsource index patterns must be strings")
        | some _ =>
          Except.error (ConfigError.parseError "Logsource index must be string or list of strings")
      let conditions ←
        match dictLookup d "conditions" with
        | none => Except.ok none
        | some (.pdict entries) =>
          Except.ok (some (LsCond.andC (entries.map (fun kv => LsCond.pair kv.1 kv.2))))
        | some _ => Except.error (ConfigError.parseError "Logsource conditions must be a map")
      Except.ok {
        name := name
        indexfield := indexfield
        category := category
        product := product
        service := service
        index := index
        conditions := conditions }

/-- The possible first arguments of `SigmaLogsourceConfiguration.__init__`:
Python `None`, a list of built instances, or a parsed YAML value. -/
inductive LogsourceSrc where
  | noSrc
  | merged (lss : List LogsourceConfig)
  | raw (v : PVal)

/-- `SigmaLogsourceConfiguration.__init__`, dispatching on the argument as
the source does: `None` builds the empty definition, a list of instances is
merged, a YAML map is parsed, anything else is a parse error. -/
def mkLogsourceConfig (logsource : LogsourceSrc) (defaultindex : Option PVal)
    (name : Option String) (mergemethod : String) (indexfield : Option String) :
    Except ConfigError LogsourceConfig :=
  match logsource with
  | .noSrc =>
    .ok { name := name, indexfield := indexfield, category := none, product := none,
          service := none, index := [], conditions := none }
  | .merged lss => mergeLogsourceConfigs lss defaultindex name mergemethod
  | .raw (.pdict d) => parseLogsourceDict d name indexfield
  | .raw _ => .error (.parseError "Logsource definitions must be maps")

/-- Modelled from the spec: `FieldMapping` (from `sigma.config.mapping`,
not among the sources) pairs a source field name with its target field
names; only its presence in the configuration state matters here. -/
structure FieldMapping where
  source : String
  target : List String

/-- The part of a backend object that `configuration.py` reads: its
`index_field` attribute. -/
structure Backend where
  index_field : Option String

/-- The attributes of a `SigmaConfiguration` object: the retained raw
config document, parsed field mappings, merge method, default index, the
log-source list and the attached backend. -/
structure SigmaConfigState where
  config : Option (List (String × PVal))
  fieldmappings : List (String × FieldMapping)
  logsourcemerging : String
  defaultindex : Option PVal
  logsources : List LogsourceConfig
  backend : Option Backend

/-- `SigmaConfiguration.get_indexfield`: the attached backend's index
field, or Python `None` when no backend is attached. -/
def get_indexfield (st : SigmaConfigState) : Option String :=
  match st.backend with
  | some b => b.index_field
  | none => none

/-- `SigmaConfiguration.set_backend`: store the backend, then — when a raw
config document with a `logsources` map is held — parse every log-source
definition and append it to the log-source list. -/
def set_backend (st : SigmaConfigState) (backend : Backend) :
    Except ConfigError SigmaConfigState :=
  let st1 := { st with backend := some backend }
  match st1.config with
  | none => .ok st1
  | some config =>
    match dictLookup config "logsources" with
    | none => .ok st1
    | some (.pdict logsources) => do
      let parsed ← logsources.mapM (fun nv =>
        mkLogsourceConfig (.raw nv.2) st1.defaultindex (some nv.1)
          st1.logsourcemerging (get_indexfield st1))
      .ok { st1 with logsources := st1.logsources ++ parsed }
    | some _ => .error (.parseError "Logsources must be a map")

/-- `SigmaConfiguration.get_logsource`: merge all matching log-source
definitions (note the source calls the constructor with its defaults, so
the merge method is `MM_AND` and no name or index field is passed). -/
def get_logsource (st : SigmaConfigState) (category product service : Option String) :
    Except ConfigError LogsourceConfig :=
  let matching := st.logsources.filter (fun ls => matchesLogsource ls category product service)
  mkLogsourceConfig (.merged matching) st.defaultindex none MM_AND none

end SigmaCfg

/-! Support definitions for the claim statements: characterizations written
from the specification's wording (for refinement comparisons) and concrete
instances used by witnesses and counterexamples. -/

/-- A configured default index of a type other than string or
list-of-strings: exactly the values the merge raises `TypeError`
(`InvalidDefaultIndexType`) for when the unioned index set is empty. -/
def badDefaultIndex : Option PVal → Bool
  | none => false
  | some (.pstr _) => false
  | some (.plist l) => !(l.all pvalIsStr)
  | some _ => true

/-- Whether a scalar contains the wildcard marker `*` (an integer never
does). -/
def scalarHasWildcard : Scalar → Bool
  | .str s => strContains s "*"
  | .int _ => false

/-- Translate the wildcard marker `*` to the pattern-match token `%`. -/
def scalarWildcardToPercent : Scalar → Scalar
  | .str s => .str (s.replace "*" "%")
  | .int n => .int n

/-- The per-element clause of a map-item list as the specification words
it: a pattern-match clause (wildcard marker translated to `%`) when the
element contains a wildcard marker, and a `key = value` equality clause
otherwise.  Compared against the source-side rendering in the C6 claim. -/
def specListClause (key : String) (item : Scalar) : String :=
  if scalarHasWildcard item then
    QRadar.cleanKey key ++ " ilike " ++ QRadar.generateValueNode (scalarWildcardToPercent item) true
  else
    QRadar.cleanKey key ++ " = " ++ QRadar.generateValueNode item true

/-- Scans a character list for an occurrence of `c` that is not preceded by
an escaping backslash (the second argument tracks whether the current
position is escaped by the previous character). -/
def containsUnescaped (c : Char) : List Char → Bool → Bool
  | [], _ => false
  | x :: rest, escaped =>
    if escaped then containsUnescaped c rest false
    else if x = bsChar then containsUnescaped c rest true
    else if x = c then true
    else containsUnescaped c rest false

/-- A log-source definition carrying only the category
`process_creation`. -/
def lsProcCreation : SigmaCfg.LogsourceConfig :=
  { name := none, indexfield := none, category := some "process_creation",
    product := none, service := none, index := [], conditions := none }

/-- A log-source definition carrying only the category
`network_connection`. -/
def lsNetConn : SigmaCfg.LogsourceConfig :=
  { name := none, indexfield := none, category := some "network_connection",
    product := none, service := none, index := [], conditions := none }

/-- A log-source definition with no index patterns, used to exercise the
default-index substitution. -/
def lsAuthNoIndex : SigmaCfg.LogsourceConfig :=
  { name := none, indexfield := none, category := some "authentication",
    product := none, service := none, index := [], conditions := none }

/-- The merge of `[lsAuthNoIndex]` under default index `"main"`. -/
def c4Merged : SigmaCfg.LogsourceConfig :=
  { name := none, indexfield := none, category := some "authentication",
    product := none, service := none, index := ["main"], conditions := none }

/-- An aggregation descriptor using the `near` function. -/
def nearAgg : QRadar.AggregationSpec :=
  { aggfunc := .near, aggfunc_notrans := "near", aggfield := "EventID",
    groupfield := some "User", cond_op := ">", condition := "5" }

/-- The aggregation descriptor named by claim C1: COUNT over EventID,
grouped by User, threshold `> 5`. -/
def c1Agg : QRadar.AggregationSpec :=
  { aggfunc := .count, aggfunc_notrans := "COUNT", aggfield := "EventID",
    groupfield := some "User", cond_op := ">", condition := "5" }

/-- The SELECT fragment actually produced for `c1Agg` (note the leading and
trailing space). -/
def c1Pre : String := " SELECT COUNT(EventID) as agg_val from events where "

/-- The group-by fragment actually produced for `c1Agg` (note the leading
space). -/
def c1Suf : String := " group by User having agg_val > 5"

/-- A minimal parsed rule carrying the `c1Agg` aggregation, used to exhibit
the data source chosen on the aggregation path. -/
def c2Parsed : QRadar.Parsed := ⟨.mapItem "a" (.scalar (.str "b")), some c1Agg⟩

/-- The query produced for `c2Parsed` over a flow index: the aggregation
fragments name `events` although the resolved index is flow-typed. -/
def c2Query : String :=
  " SELECT COUNT(EventID) as agg_val from events where a=" ++ sqStr ++ "b" ++ sqStr ++
    " group by User having agg_val > 5"

/-- A value containing the single-quote delimiter character, whose quoting
the C7 counterexample inspects. -/
def c7Val : String := "a" ++ sqStr ++ "b"

/-- A configuration state as built from a config document holding one
log-source definition, before any backend is attached. -/
def c9State : SigmaCfg.SigmaConfigState :=
  { config := some [("logsources", .pdict [("ls1", .pdict [("category", .pstr "process_creation")])])],
    fieldmappings := [], logsourcemerging := SigmaCfg.MM_AND, defaultindex := none,
    logsources := [], backend := none }

/-- The backend attached in the C9 scenario. -/
def c9Backend : SigmaCfg.Backend := { index_field := some "idxfield" }

/-- The state produced by attaching `c9Backend` to `c9State`. -/
def c9After : SigmaCfg.SigmaConfigState :=
  { config := some [("logsources", .pdict [("ls1", .pdict [("category", .pstr "process_creation")])])],
    fieldmappings := [], logsourcemerging := SigmaCfg.MM_AND, defaultindex := none,
    logsources := [{ name := some "ls1", indexfield := some "idxfield",
                     category := some "process_creation", product := none, service := none,
                     index := [], conditions := none }],
    backend := some c9Backend }

/-! Helper lemmas. -/

/-- Reduction of monadic bind on a successful `Except` computation. -/
@[simp] lemma exOkBind {ε α β : Type} (a : α) (f : α → Except ε β) :
    (Except.ok a >>= f) = f a := rfl

/-- Reduction of monadic bind on a failed `Except` computation. -/
@[simp] lemma exErrBind {ε α β : Type} (e : ε) (f : α → Except ε β) :
    ((Except.error e : Except ε α) >>= f) = Except.error e := rfl

/-- Inversion of a successful log-source merge: the merged attributes are
the heads of the deduplicated non-absent value lists and the merged index
is the (successful) result of the default-index substitution applied to the
deduplicated union. -/
lemma mergeLogsourceConfigs_ok_inv
    (lss : List SigmaCfg.LogsourceConfig) (di : Option PVal) (nm : Option String)
    (mm : String) (merged : SigmaCfg.LogsourceConfig)
    (h : SigmaCfg.mergeLogsourceConfigs lss di nm mm = Except.ok merged) :
    merged.name = nm ∧
    merged.category = (lss.filterMap (fun ls => ls.category)).dedup.head? ∧
    merged.product = (lss.filterMap (fun ls => ls.product)).dedup.head? ∧
    merged.service = (lss.filterMap (fun ls => ls.service)).dedup.head? ∧
    SigmaCfg.mergeDefaultIndex ((lss.flatMap (fun ls => ls.index)).dedup) di =
      Except.ok merged.index := by
  simp only [SigmaCfg.mergeLogsourceConfigs] at h
  split at h
  · cases h
  · cases hidx : SigmaCfg.mergeDefaultIndex ((lss.flatMap (fun ls => ls.index)).dedup) di with
    | error e => rw [hidx] at h; simp at h
    | ok idx =>
      rw [hidx] at h
      cases hmm : SigmaCfg.mergeCondNode mm (lss.filterMap (fun ls => ls.conditions)) with
      | error e => rw [hmm] at h; simp at h
      | ok condNode =>
        rw [hmm] at h
        simp only [exOkBind] at h
        cases h
        simp [hidx]

/-- A non-empty index union passes through the default-index substitution
unchanged. -/
lemma mergeDefaultIndex_nonempty (u : List String) (di : Option PVal) (h : u ≠ []) :
    SigmaCfg.mergeDefaultIndex u di = Except.ok u := by
  cases u with
  | nil => exact absurd rfl h
  | cons x xs => cases di <;> rfl

/-- An empty index union together with a badly-typed configured default
raises `InvalidDefaultIndexType`. -/
lemma mergeDefaultIndex_bad (di : Option PVal) (h : badDefaultIndex di = true) :
    SigmaCfg.mergeDefaultIndex [] di = Except.error ConfigError.invalidDefaultIndexType := by
  match di with
  | none => cases h
  | some (.pstr s) => cases h
  | some (.plist l) =>
    simp only [badDefaultIndex, Bool.not_eq_true'] at h
    simp [SigmaCfg.mergeDefaultIndex, h]
  | some (.pint n) => rfl
  | some (.pdict d) => rfl
  | some .pnone => rfl

/-- Every character of the escaped output is either the inserted backslash
or a character of the input. -/
lemma cleanValueList_mem (x : Char) : ∀ l : List Char,
    x ∈ QRadar.cleanValueList l → x = bsChar ∨ x ∈ l := by
  intro l
  induction l with
  | nil => intro h; simp [QRadar.cleanValueList] at h
  | cons y ys ih =>
    intro h
    simp only [QRadar.cleanValueList] at h
    by_cases hy : y = dqChar
    · rw [if_pos hy] at h
      rw [List.mem_cons, List.mem_cons] at h
      rcases h with h | h | h
      · exact Or.inl h
      · exact Or.inr (by simp [h])
      · rcases ih h with h2 | h2
        · exact Or.inl h2
        · exact Or.inr (List.mem_cons_of_mem _ h2)
    · rw [if_neg hy] at h
      rw [List.mem_cons] at h
      rcases h with h | h
      · exact Or.inr (by simp [h])
      · rcases ih h with h2 | h2
        · exact Or.inl h2
        · exact Or.inr (List.mem_cons_of_mem _ h2)

/-- A character that does not occur in a list is in particular never found
unescaped. -/
lemma containsUnescaped_of_not_mem (c : Char) (l : List Char) (h : c ∉ l) :
    ∀ b, containsUnescaped c l b = false := by
  induction l with
  | nil => intro b; rfl
  | cons x xs ih =>
    intro b
    have hx : x ≠ c := fun he => h (by simp [he])
    have hxs : c ∉ xs := fun hm => h (List.mem_cons_of_mem _ hm)
    simp only [containsUnescaped]
    by_cases hb : b
    · rw [if_pos hb]; exact ih hxs false
    · rw [if_neg hb]
      by_cases hbs : x = bsChar
      · rw [if_pos hbs]; exact ih hxs true
      · rw [if_neg hbs, if_neg hx]; exact ih hxs false

/-! Claim theorems. -/

/-- C1 (counterexample): the aggregation renderer, on the COUNT/EventID/
User/`>`/5 descriptor, does not produce exactly the prefix
`SELECT COUNT(EventID) as agg_val from events where` nor exactly the suffix
`group by User having agg_val > 5`: the produced fragments carry a leading
space (and, for the prefix, also a trailing one). -/
theorem claim_C1_counterexample :
    QRadar.generateAggregation (some c1Agg) = Except.ok (.fragments c1Pre c1Suf) ∧
    c1Pre ≠ "SELECT COUNT(EventID) as agg_val from events where" ∧
    c1Suf ≠ "group by User having agg_val > 5" ∧
    (QRadar.generateQuery ⟨.mapItem "a" (.scalar (.str "b")), some c1Agg⟩ []).toOption ≠
      some ("SELECT COUNT(EventID) as agg_val from events where" ++
        ("a=" ++ sqStr ++ "b" ++ sqStr) ++ "group by User having agg_val > 5") := by
  refine ⟨rfl, ?_, ?_, ?_⟩ <;> decide

/-- C1 (amended): for the COUNT/EventID/User/`>`/5 descriptor the renderer
produces exactly the prefix `" SELECT COUNT(EventID) as agg_val from events
where "` (one leading and one trailing space) and exactly the suffix
`" group by User having agg_val > 5"` (one leading space); the assembled
query is prefix ++ predicate ++ suffix; with `group_field` absent the
prefix is the same SELECT text without the surrounding spaces and the
suffix groups by the aggregation field. -/
theorem claim_C1_amended : ∀ (parsed : QRadar.Parsed) (idx : List String) (pred : String),
    QRadar.generateAggregation (some c1Agg) = Except.ok (.fragments c1Pre c1Suf) ∧
    (parsed.parsedAgg = some c1Agg →
      QRadar.generateNode parsed.parsedSearch = Except.ok pred →
      QRadar.generateQuery parsed idx = Except.ok (c1Pre ++ pred ++ c1Suf)) ∧
    QRadar.generateAggregation (some { c1Agg with groupfield := none }) =
      Except.ok (.fragments "SELECT COUNT(EventID) as agg_val from events where"
        " group by EventID having agg_val > 5") := by
  intro parsed idx pred
  refine ⟨rfl, ?_, rfl⟩
  intro hAgg hPred
  simp [QRadar.generateQuery, hAgg, hPred]
  rfl

/-- C1 (witness): concrete assembly of prefix, rendered predicate and
suffix for a one-map-item rule carrying the C1 aggregation. -/
theorem claim_C1_witness :
    QRadar.generateQuery ⟨.mapItem "a" (.scalar (.str "b")), some c1Agg⟩ [] =
      Except.ok (c1Pre ++ ("a=" ++ sqStr ++ "b" ++ sqStr) ++ c1Suf) :=
  (claim_C1_amended ⟨.mapItem "a" (.scalar (.str "b")), some c1Agg⟩ []
    ("a=" ++ sqStr ++ "b" ++ sqStr)).2.1 rfl rfl

/-- C2 (counterexample): over the flow-typed index `netflow` the data
source selected by the policy is `flows`, yet the aggregation-path query
says `from events` and never `from flows` — so the name after `from` is not
the stated pure function of the resolved index set on both paths. -/
theorem claim_C2_counterexample :
    strContains "netflow" "flow" = true ∧
    QRadar.aqlDataSource ["netflow"] = "flows" ∧
    QRadar.generateQuery c2Parsed ["netflow"] = Except.ok c2Query ∧
    strContains c2Query "from flows" = false ∧
    strContains c2Query "from events" = true := by
  refine ⟨by decide, by decide, rfl, by decide, by decide⟩

/-- C2 (amended): on the non-aggregation path the data source name after
`from` is the pure function `aqlDataSource` of the resolved index set
(`flows` when some pattern contains `flow`, else `events`); on the
aggregation path the query is independent of the resolved index set
altogether (the fragments use the class constant `events`). -/
theorem claim_C2_amended : ∀ (parsed : QRadar.Parsed) (idx idx2 : List String) (pred : String),
    QRadar.generateNode parsed.parsedSearch = Except.ok pred →
    ((parsed.parsedAgg = none →
       QRadar.generateQuery parsed idx =
         Except.ok ("SELECT UTF8(payload) as search_payload from " ++
           QRadar.aqlDataSource idx ++ " where " ++ pred)) ∧
     (parsed.parsedAgg.isSome = true →
       QRadar.generateQuery parsed idx = QRadar.generateQuery parsed idx2)) := by
  intro parsed idx idx2 pred hPred
  constructor
  · intro hAgg
    simp [QRadar.generateQuery, hAgg, hPred]
  · intro hAgg
    obtain ⟨a, ha⟩ := Option.isSome_iff_exists.mp hAgg
    simp [QRadar.generateQuery, ha, hPred]

/-- C2 (witness): a non-aggregation rule over the index `netflow` is
assembled with the flow-oriented data source name. -/
theorem claim_C2_witness :
    QRadar.generateQuery ⟨.mapItem "a" (.scalar (.str "b")), none⟩ ["netflow"] =
      Except.ok ("SELECT UTF8(payload) as search_payload from " ++
        QRadar.aqlDataSource ["netflow"] ++ " where " ++ ("a=" ++ sqStr ++ "b" ++ sqStr)) :=
  (claim_C2_amended ⟨.mapItem "a" (.scalar (.str "b")), none⟩ ["netflow"] []
    ("a=" ++ sqStr ++ "b" ++ sqStr) rfl).1 rfl

/-- C3: merging log-source definitions raises `MergeConflict` as soon as
one of category, product or service collects more than one distinct
non-absent value across the matches, and a successful merge leaves an
attribute absent whenever no match carries a value for it. -/
theorem claim_C3 : ∀ (lss : List SigmaCfg.LogsourceConfig) (di : Option PVal)
    (nm : Option String) (mm : String),
    (((lss.filterMap (fun ls => ls.category)).dedup.length > 1 ∨
      (lss.filterMap (fun ls => ls.product)).dedup.length > 1 ∨
      (lss.filterMap (fun ls => ls.service)).dedup.length > 1) →
      SigmaCfg.mergeLogsourceConfigs lss di nm mm = Except.error ConfigError.mergeConflict) ∧
    (∀ merged, SigmaCfg.mergeLogsourceConfigs lss di nm mm = Except.ok merged →
      ((lss.filterMap (fun ls => ls.category)).dedup = [] → merged.category = none) ∧
      ((lss.filterMap (fun ls => ls.product)).dedup = [] → merged.product = none) ∧
      ((lss.filterMap (fun ls => ls.service)).dedup = [] → merged.service = none)) := by
  intro lss di nm mm
  constructor
  · intro h
    simp only [SigmaCfg.mergeLogsourceConfigs]
    rw [if_pos h]
  · intro merged h
    obtain ⟨-, hc, hp, hs, -⟩ := mergeLogsourceConfigs_ok_inv lss di nm mm merged h
    exact ⟨fun he => by rw [hc, he]; rfl,
           fun he => by rw [hp, he]; rfl,
           fun he => by rw [hs, he]; rfl⟩

/-- C3 (witness): merging the categories `process_creation` and
`network_connection` raises `MergeConflict`. -/
theorem claim_C3_witness :
    SigmaCfg.mergeLogsourceConfigs [lsProcCreation, lsNetConn] none none SigmaCfg.MM_AND =
      Except.error ConfigError.mergeConflict :=
  (claim_C3 [lsProcCreation, lsNetConn] none none SigmaCfg.MM_AND).1 (by decide)

/-- C4: a successful merge yields, when the deduplicated union of the
matched definitions' index patterns is non-empty, exactly that union
(duplicate-free, containing a pattern exactly when some matched definition
contains it); when the union is empty, an absent default keeps the index
set empty, a string default becomes a one-element set, and a
list-of-strings default is used as-is; a default of any other type makes
the merge fail with `InvalidDefaultIndexType`. -/
theorem claim_C4 : ∀ (lss : List SigmaCfg.LogsourceConfig) (di : Option PVal)
    (nm : Option String) (mm : String),
    (∀ merged, SigmaCfg.mergeLogsourceConfigs lss di nm mm = Except.ok merged →
      (((lss.flatMap (fun ls => ls.index)).dedup ≠ [] →
         merged.index = (lss.flatMap (fun ls => ls.index)).dedup ∧
         merged.index.Nodup ∧
         (∀ x, x ∈ merged.index ↔ ∃ ls ∈ lss, x ∈ ls.index)) ∧
       ((lss.flatMap (fun ls => ls.index)).dedup = [] →
         (di = none → merged.index = []) ∧
         (∀ s, di = some (.pstr s) → merged.index = [s]) ∧
         (∀ l, di = some (.plist l) → l.all pvalIsStr = true →
            merged.index = l.filterMap pvalAsStr)))) ∧
    (¬((lss.filterMap (fun ls => ls.category)).dedup.length > 1 ∨
       (lss.filterMap (fun ls => ls.product)).dedup.length > 1 ∨
       (lss.filterMap (fun ls => ls.service)).dedup.length > 1) →
     (lss.flatMap (fun ls => ls.index)).dedup = [] →
     badDefaultIndex di = true →
     SigmaCfg.mergeLogsourceConfigs lss di nm mm =
       Except.error ConfigError.invalidDefaultIndexType) := by
  intro lss di nm mm
  constructor
  · intro merged h
    obtain ⟨-, -, -, -, hidx⟩ := mergeLogsourceConfigs_ok_inv lss di nm mm merged h
    constructor
    · intro hne
      rw [mergeDefaultIndex_nonempty _ di hne] at hidx
      injection hidx with hidx
      refine ⟨hidx.symm, ?_, ?_⟩
      · rw [← hidx]; exact List.nodup_dedup _
      · intro x; rw [← hidx]
        simp [List.mem_dedup, List.mem_flatMap]
    · intro hemp
      rw [hemp] at hidx
      refine ⟨?_, ?_, ?_⟩
      · intro hdi; rw [hdi] at hidx
        simpa [SigmaCfg.mergeDefaultIndex] using hidx.symm
      · intro s hdi; rw [hdi] at hidx
        simpa [SigmaCfg.mergeDefaultIndex] using hidx.symm
      · intro l hdi hall; rw [hdi] at hidx
        simp [SigmaCfg.mergeDefaultIndex, hall] at hidx
        exact hidx.symm
  · intro hc hemp hbad
    simp only [SigmaCfg.mergeLogsourceConfigs]
    rw [if_neg hc, hemp, mergeDefaultIndex_bad di hbad]
    simp

/-- C4 (witness): merging a definition without index patterns under the
default index `main` resolves the index set to exactly `["main"]`. -/
theorem claim_C4_witness :
    SigmaCfg.mergeLogsourceConfigs [lsAuthNoIndex] (some (.pstr "main")) none SigmaCfg.MM_AND =
      Except.ok c4Merged ∧ c4Merged.index = ["main"] :=
  ⟨rfl, (((claim_C4 [lsAuthNoIndex] (some (.pstr "main")) none SigmaCfg.MM_AND).1
      c4Merged rfl).2 rfl).2.1 "main" rfl⟩

/-- C5: a log-source definition matches a (category, product, service)
query triple exactly when it specifies at least one attribute and every
attribute it specifies equals the corresponding query attribute; attributes
the definition leaves absent are wildcards, and a definition specifying no
attribute never matches. -/
theorem claim_C5 : ∀ (ls : SigmaCfg.LogsourceConfig) (c p s : Option String),
    SigmaCfg.matchesLogsource ls c p s = true ↔
      ((ls.category ≠ none ∨ ls.product ≠ none ∨ ls.service ≠ none) ∧
       (∀ v, ls.category = some v → c = some v) ∧
       (∀ v, ls.product = some v → p = some v) ∧
       (∀ v, ls.service = some v → s = some v)) := by
  intro ls c p s
  obtain ⟨nm, ifd, cat, prod, serv, idx, conds⟩ := ls
  simp only [SigmaCfg.matchesLogsource]
  cases cat <;> cases prod <;> cases serv <;> cases c <;> cases p <;> cases s <;>
    simp [SigmaCfg.matchesLoop]

/-- C5 (witness): the `process_creation` definition matches the query
triple (`process_creation`, absent, absent). -/
theorem claim_C5_witness :
    SigmaCfg.matchesLogsource lsProcCreation (some "process_creation") none none = true :=
  (claim_C5 lsProcCreation (some "process_creation") none none).mpr
    ⟨Or.inl (by decide), fun _ hv => hv, fun _ hv => hv, fun _ hv => hv⟩

/-- C6: a map item with a list value renders as a parenthesized disjunction
joined by the backend OR token, with exactly one clause per list element,
each clause following the wildcard/equality rule (pattern-match with `*`
translated to `%` when a wildcard marker is present, `key = value` equality
otherwise). -/
theorem claim_C6 : ∀ (key : String) (items : List Scalar),
    QRadar.generateMapItemListNode key items =
      "(" ++ String.intercalate QRadar.orToken (items.map (specListClause key)) ++ ")" ∧
    (items.map (specListClause key)).length = items.length := by
  intro key items
  constructor
  · have hcl : ∀ it : Scalar, QRadar.mapListItemClause key it = specListClause key it := by
      intro it
      cases it with
      | str s =>
        simp only [QRadar.mapListItemClause, specListClause, scalarHasWildcard,
          scalarWildcardToPercent]
      | int n => rfl
    have hfun : QRadar.mapListItemClause key = specListClause key := funext hcl
    simp [QRadar.generateMapItemListNode, QRadar.orToken, hfun]
  · simp

/-- C7 (counterexample): the value `a'b` (containing the single-quote
delimiter) is inserted into the single-quoted value literal untouched by
the escaping, so the emitted literal contains an unescaped occurrence of
the delimiter — the claimed totality fails for strings containing single
quotes. -/
theorem claim_C7_counterexample :
    QRadar.generateValueNode (.str c7Val) true = sqStr ++ QRadar.cleanValue c7Val ++ sqStr ∧
    QRadar.cleanValue c7Val = c7Val ∧
    containsUnescaped sqChar (QRadar.cleanValue c7Val).toList false = true := by
  refine ⟨rfl, by decide, by decide⟩

/-- C7 (amended): the escaping applied before insertion prefixes a
backslash to double quotes only; the emitted single-quoted literal is free
of unescaped delimiter occurrences only for input strings that contain no
single-quote character. -/
theorem claim_C7_amended : ∀ s : String, s.toList.contains sqChar = false →
    QRadar.generateValueNode (.str s) true = sqStr ++ QRadar.cleanValue s ++ sqStr ∧
    containsUnescaped sqChar (QRadar.cleanValue s).toList false = false := by
  intro s h
  have hmem : sqChar ∉ s.toList := by simpa using h
  constructor
  · simp [QRadar.generateValueNode, QRadar.scalarStr]
  · have hnot : sqChar ∉ (QRadar.cleanValue s).toList := by
      intro hin
      have hno : sqChar ∉ QRadar.cleanValueList s.toList := by
        intro hin2
        rcases cleanValueList_mem _ _ hin2 with he | he
        · exact absurd he (by decide)
        · exact hmem he
      exact hno hin
    exact containsUnescaped_of_not_mem _ _ hnot false

/-- C7 (witness): for the delimiter-free value `abc` the emitted literal
contains no unescaped delimiter. -/
theorem claim_C7_witness :
    QRadar.generateValueNode (.str "abc") true = sqStr ++ QRadar.cleanValue "abc" ++ sqStr ∧
    containsUnescaped sqChar (QRadar.cleanValue "abc").toList false = false :=
  claim_C7_amended "abc" (by decide)

/-- C8: an aggregation descriptor whose function is `near` always makes the
aggregation renderer raise the unsupported-aggregation error, whatever the
other fields hold, while an absent aggregation raises nothing and produces
no fragments. -/
theorem claim_C8 :
    (∀ a : QRadar.AggregationSpec, a.aggfunc = QRadar.AggFunc.near →
      QRadar.generateAggregation (some a) = Except.error TransError.unsupportedAggregation) ∧
    QRadar.generateAggregation none = Except.ok QRadar.AggResult.noAgg := by
  constructor
  · intro a h
    simp [QRadar.generateAggregation, h]
  · rfl

/-- C8 (witness): a concrete `near` descriptor raises the
unsupported-aggregation error. -/
theorem claim_C8_witness :
    QRadar.generateAggregation (some nearAgg) = Except.error TransError.unsupportedAggregation :=
  claim_C8.1 nearAgg rfl

/-- C10: `generate` renders and returns the query of the first parsed
condition variant only — its result equals the rendering of the head
variant and is unchanged by whatever further variants follow. -/
theorem claim_C10 : ∀ (p : QRadar.Parsed) (rest : List QRadar.Parsed) (idx : List String),
    QRadar.generate (p :: rest) idx = (QRadar.generateQuery p idx).map some ∧
    QRadar.generate (p :: rest) idx = QRadar.generate [p] idx := by
  intro p rest idx
  cases hq : QRadar.generateQuery p idx with
  | error e =>
    constructor <;>
      simp [QRadar.generate, hq, QRadar.generateBefore, QRadar.generateAfter, Except.map]
  | ok q =>
    constructor <;>
      simp [QRadar.generate, hq, QRadar.generateBefore, QRadar.generateAfter, Except.map]

/-- C9 (counterexample): attaching a backend to a configuration whose
document holds a `logsources` map changes the previously held log-source
list (it grows from zero to one entry), so the attach call does not leave
prior state unchanged. -/
theorem claim_C9_counterexample :
    (SigmaCfg.set_backend c9State c9Backend).map (fun st => st.logsources.length) =
      Except.ok 1 ∧
    c9State.logsources.length = 0 := by
  exact ⟨rfl, rfl⟩

/-- C9 (amended): a successful `set_backend` leaves the field mappings,
merge method, default index and retained config document unchanged and
stores the backend, but it populates the log-source list by appending the
definitions parsed from the config document (using the backend's index
field); the previously held list is extended, not preserved as-is. -/
theorem claim_C9_amended : ∀ (st st2 : SigmaCfg.SigmaConfigState) (b : SigmaCfg.Backend),
    SigmaCfg.set_backend st b = Except.ok st2 →
    st2.fieldmappings = st.fieldmappings ∧
    st2.logsourcemerging = st.logsourcemerging ∧
    st2.defaultindex = st.defaultindex ∧
    st2.config = st.config ∧
    st2.backend = some b ∧
    ∃ appended, st2.logsources = st.logsources ++ appended := by
  intro st st2 b h
  simp only [SigmaCfg.set_backend] at h
  split at h
  · cases h
    exact ⟨rfl, rfl, rfl, rfl, rfl, [], by simp⟩
  · rename_i config hcfg
    split at h
    · cases h
      exact ⟨rfl, rfl, rfl, rfl, rfl, [], by simp⟩
    · rename_i v hv
      cases hm : (List.mapM (fun nv =>
          SigmaCfg.mkLogsourceConfig (SigmaCfg.LogsourceSrc.raw nv.2) st.defaultindex (some nv.1)
            st.logsourcemerging (SigmaCfg.get_indexfield { st with backend := some b })) v) with
      | error e => rw [hm] at h; simp at h
      | ok parsed =>
        rw [hm] at h
        simp only [exOkBind] at h
        cases h
        exact ⟨rfl, rfl, rfl, rfl, rfl, parsed, rfl⟩
    · cases h

/-- C9 (witness): the concrete attach of `c9Backend` to `c9State` keeps
field mappings, merge method, default index and config document, stores
the backend, and appends the parsed log source. -/
theorem claim_C9_witness :
    c9After.fieldmappings = c9State.fieldmappings ∧
    c9After.logsourcemerging = c9State.logsourcemerging ∧
    c9After.defaultindex = c9State.defaultindex ∧
    c9After.config = c9State.config ∧
    c9After.backend = some c9Backend ∧
    ∃ appended, c9After.logsources = c9State.logsources ++ appended :=
  claim_C9_amended c9State c9After c9Backend rfl
